import Mathlib

/-!
Verification of the NDJSON event-classification loop and result aggregation
of `codex_bridge.py` (the `main` function's per-line processing, the
post-drain invariant checks, and the final result object), together with
the synthetic timeout event manufactured by `run_shell_command`.

The embedding follows `src/skills/my/collaborating-with-codex/scripts/codex_bridge.py`
lines 261-325; the sibling `src/my/.../codex_bridge.py` differs only in
terminal progress output and in turning the top-level `type` dispatch into
an `elif` chain, which does not affect any property proved here.

Modelling conventions:
- A parsed JSON value is the inductive `Json`; JSON numbers are modelled as
  integers (no claim depends on float payloads).
- A line of child output is a `Line`: either it decodes to a `Json` value or
  `json.loads` raises (`Line.malformed`).  The JSON text-to-value relation
  itself is not modelled; concrete scenarios construct the parsed values.
- Python `dict.get(k)` returns Python `None` both for a missing key and for a
  stored JSON `null`; `pyDictGet` collapses both to `none`.
- Python runtime errors reachable inside the loop body (`AttributeError` on
  `.get` of a non-dict, `TypeError` from `str + non-str` or from `re.match`
  on a non-string) are modelled by the `Except.error` outcome of the step
  functions, carrying the state as mutated up to the raise; the enclosing
  `except Exception` handler then applies `raiseUnexpected`.
- The reconnect pattern `^Reconnecting\.\.\.\s+\d+/\d+$` is modelled so as
  to be exact on ASCII messages: the classes `\s` and `\d` are the ASCII
  whitespace `[ \t\n\r\v\f]` and digits `[0-9]`, and `$` also matches just
  before one trailing newline, as in Python.  Unicode digits and whitespace
  are outside the model, so on arbitrary strings `reconnectMatch` is an
  under-approximation of the source regex (everything it matches, the
  source matches); statements that need the non-matching direction restrict
  the message to ASCII (`asciiOnly`), where the two coincide.
-/

/-- A parsed JSON value (numbers modelled as integers). -/
inductive Json where
  | null : Json
  | bool (b : Bool) : Json
  | num (n : Int) : Json
  | str (s : String) : Json
  | arr (elems : List Json) : Json
  | obj (fields : List (String × Json)) : Json

/-- Whether a JSON value is an object (a Python `dict` after `json.loads`). -/
def Json.isObj : Json → Bool
  | Json.obj _ => true
  | _ => false

/-- Key lookup in a parsed JSON object.  `json.loads` keeps the last of any
duplicate keys, so a later binding shadows an earlier one. -/
def Json.lookup : List (String × Json) → String → Option Json
  | [], _ => none
  | (k', v) :: rest, k =>
    match Json.lookup rest k with
    | some v' => some v'
    | none => if k' = k then some v else none

/-- Python `line_dict.get(k)`: `none` when the key is absent or its value is
JSON `null` (both give Python `None`). -/
def pyDictGet (kvs : List (String × Json)) (k : String) : Option Json :=
  match Json.lookup kvs k with
  | some Json.null => none
  | some v => some v
  | none => none

/-- Python `line_dict.get(k, default)`: the stored value when the key is
present (a stored JSON `null` is returned as such, standing for Python
`None`), the default otherwise. -/
def pyDictGetD (kvs : List (String × Json)) (k : String) (d : Json) : Json :=
  match Json.lookup kvs k with
  | some v => v
  | none => d

/-- Python truthiness of a JSON value (used by `if thread_id:`). -/
def jsonTruthy : Json → Bool
  | Json.null => false
  | Json.bool b => b
  | Json.num n => !(n == 0)
  | Json.str s => !(s == "")
  | Json.arr elems => !elems.isEmpty
  | Json.obj fields => !fields.isEmpty

/-- Whether the list starts with the given pattern. -/
def startsWithList : List Char → List Char → Bool
  | _, [] => true
  | [], _ :: _ => false
  | c :: cs, p :: ps => if c = p then startsWithList cs ps else false

/-- Whether the pattern occurs as a contiguous run of the list
(Python `pat in s`). -/
def containsList : List Char → List Char → Bool
  | [], pat => startsWithList [] pat
  | l@(_ :: rest), pat => startsWithList l pat || containsList rest pat

/-- Python substring test `pat in s`. -/
def strContainsB (s pat : String) : Bool := containsList s.toList pat.toList

/-- Boolean string-prefix test: `p` begins `s`. -/
def strPrefixOfB (p s : String) : Bool := startsWithList s.toList p.toList

/-- Consume an exact pattern from the front of the list. -/
def consumeChars : List Char → List Char → Option (List Char)
  | [], cs => some cs
  | _ :: _, [] => none
  | p :: ps, c :: cs => if p = c then consumeChars ps cs else none

/-- Consume one or more characters satisfying `p` from the front. -/
def dropWhile1 (p : Char → Bool) : List Char → Option (List Char)
  | [] => none
  | c :: cs => if p c then some (cs.dropWhile p) else none

/-- Python `\s` on ASCII text: space, tab, newline, carriage return,
vertical tab, form feed. -/
def pyWhitespace (c : Char) : Bool :=
  c == ' ' || c == '\t' || c == '\n' || c == '\r' || c == '\x0b' || c == '\x0c'

/-- Whether a character is ASCII (code point below 128). -/
def asciiChar (c : Char) : Bool := c.toNat < 128

/-- Whether every character of the string is ASCII.  On such strings
`reconnectMatch` agrees exactly with the source regex. -/
def asciiOnly (s : String) : Bool := s.toList.all asciiChar

/-- The transient-reconnect pattern of the source,
`re.match` against `Reconnecting\.\.\.\s+\d+/\d+$`: the literal text
`Reconnecting...`, one or more whitespace characters, one or more digits,
a slash, one or more digits, then the end of the string — where, as with
Python's `$`, a single trailing newline may follow.  Exact for ASCII
strings; Unicode digits and whitespace are outside the model. -/
def reconnectMatch (s : String) : Bool :=
  match consumeChars "Reconnecting...".toList s.toList with
  | none => false
  | some rest =>
    match dropWhile1 pyWhitespace rest with
    | none => false
    | some rest2 =>
      match dropWhile1 Char.isDigit rest2 with
      | none => false
      | some rest3 =>
        match rest3 with
        | '/' :: rest4 =>
          match dropWhile1 Char.isDigit rest4 with
          | some [] => true
          | some ['\n'] => true
          | _ => false
        | _ => false

/-- The mutable accumulator of the classification loop: `all_messages`,
`agent_messages`, `success`, `err_message` and `thread_id` of `main`. -/
structure SessionResult where
  all_messages : List Json
  agent_messages : String
  success : Bool
  err_message : String
  thread_id : Option Json

/-- Loop state before the first line: `all_messages = []`,
`agent_messages = ""`, `success = True`, `err_message = ""`,
`thread_id = None`. -/
def initialState : SessionResult :=
  { all_messages := [], agent_messages := "", success := true,
    err_message := "", thread_id := none }

/-- Control outcome of one loop iteration: fall through to the next line, or
`break` out of the `for` loop. -/
inductive Control where
  | cont : Control
  | brk : Control

/-- One line yielded by `run_shell_command`: either its text decodes to a
JSON value, or `json.loads` raises `JSONDecodeError`. -/
inductive Line where
  | decoded (j : Json) (raw : String) : Line
  | malformed (raw : String) : Line

/-- Diagnostic appended by the `json.JSONDecodeError` handler:
`"\n\n[json decode error] " + line`. -/
def decodeErrMsg (raw : String) : String := "\n\n[json decode error] " ++ raw

/-- Diagnostic appended by the generic `except Exception` handler.  The
source interpolates the exception object's text; we keep the fixed prefix
and the offending line and abstract the exception text. -/
def unexpectedMsg (raw : String) : String :=
  "\n\n[unexpected error] " ++ ("Unexpected error. Line: " ++ raw)

/-- State update of the generic `except Exception` handler: append the
unexpected-error diagnostic and force `success = False`. -/
def raiseUnexpected (raw : String) (st : SessionResult) : SessionResult :=
  { st with err_message := st.err_message ++ unexpectedMsg raw, success := false }

/-- The timeout branch's message: `err_message` is assigned (not appended)
the `[TIMEOUT]` text, extended with the first 200 characters of any partial
`agent_messages`. -/
def timeoutMsg (tmoArg : Int) (agent : String) : String :=
  "[TIMEOUT] Execution exceeded " ++ toString tmoArg ++ "s limit. " ++
    "Try increasing timeout with --timeout 1200 (20 minutes)." ++
    (if agent = "" then "" else "\n\nPartial results: " ++ agent.take 200)

/-- Whether `line_dict.get("type") == "timeout"` holds. -/
def isTimeoutType (kvs : List (String × Json)) : Bool :=
  match pyDictGet kvs "type" with
  | some (Json.str s) => s = "timeout"
  | _ => false

/-- The success-demotion rule shared by the `fail` and `error` branches:
`success = False if len(agent_messages) == 0 else success`. -/
def failPolicy (st : SessionResult) : SessionResult :=
  if st.agent_messages = "" then { st with success := false } else st

/-- The `item` handling: `item = line_dict.get("item", {})`;
`item_type = item.get("type", "")`; on `agent_message`,
`agent_messages = agent_messages + item.get("text", "")`.  An `Except.error`
outcome is the Python runtime error of `.get` on a non-dict or of
concatenating a non-string text payload. -/
def itemStep (raw : String) (st : SessionResult) (kvs : List (String × Json)) :
    Except SessionResult SessionResult :=
  match Json.lookup kvs "item" with
  | none => Except.ok st
  | some (Json.obj ikvs) =>
    match pyDictGetD ikvs "type" (Json.str "") with
    | Json.str itemType =>
      if itemType = "agent_message" then
        match Json.lookup ikvs "text" with
        | none => Except.ok { st with agent_messages := st.agent_messages ++ "" }
        | some (Json.str t) =>
          Except.ok { st with agent_messages := st.agent_messages ++ t }
        | some _ => Except.error (raiseUnexpected raw st)
      else Except.ok st
    | _ => Except.ok st
  | some _ => Except.error (raiseUnexpected raw st)

/-- The session-id capture: `if line_dict.get("thread_id") is not None:
thread_id = line_dict.get("thread_id")`.  Unconditional overwrite. -/
def threadStep (st : SessionResult) (kvs : List (String × Json)) : SessionResult :=
  match pyDictGet kvs "thread_id" with
  | some v => { st with thread_id := some v }
  | none => st

/-- The `if "fail" in line_dict.get("type", "")` branch: demote `success`
per `failPolicy`, then append
`"\n\n[codex error] " + line_dict.get("error", {}).get("message", "")`. -/
def failStep (raw : String) (st : SessionResult) (kvs : List (String × Json)) :
    Except SessionResult SessionResult :=
  match pyDictGetD kvs "type" (Json.str "") with
  | Json.str s =>
    if strContainsB s "fail" then
      match Json.lookup kvs "error" with
      | none =>
        Except.ok { failPolicy st with
          err_message := (failPolicy st).err_message ++ ("\n\n[codex error] " ++ "") }
      | some (Json.obj ekvs) =>
        match Json.lookup ekvs "message" with
        | none =>
          Except.ok { failPolicy st with
            err_message := (failPolicy st).err_message ++ ("\n\n[codex error] " ++ "") }
        | some (Json.str m) =>
          Except.ok { failPolicy st with
            err_message := (failPolicy st).err_message ++ ("\n\n[codex error] " ++ m) }
        | some _ => Except.error (raiseUnexpected raw (failPolicy st))
      | some _ => Except.error (raiseUnexpected raw (failPolicy st))
    else Except.ok st
  | _ => Except.error (raiseUnexpected raw st)

/-- The `if "error" in line_dict.get("type", "")` branch:
`error_msg = line_dict.get("message", "")`; a transient reconnect notice is
ignored entirely, otherwise demote `success` per `failPolicy` and append
`"\n\n[codex error] " + error_msg`. -/
def errorStep (raw : String) (st : SessionResult) (kvs : List (String × Json)) :
    Except SessionResult SessionResult :=
  match pyDictGetD kvs "type" (Json.str "") with
  | Json.str s =>
    if strContainsB s "error" then
      match pyDictGetD kvs "message" (Json.str "") with
      | Json.str m =>
        if reconnectMatch m then Except.ok st
        else
          Except.ok { failPolicy st with
            err_message := (failPolicy st).err_message ++ ("\n\n[codex error] " ++ m) }
      | _ => Except.error (raiseUnexpected raw st)
    else Except.ok st
  | _ => Except.error (raiseUnexpected raw st)

/-- The message the `fail` branch reads,
`line_dict.get("error", {}).get("message", "")`: `some` of the resulting
string when the expression evaluates without raising (an absent `error`
field or absent `message` field gives `""`), `none` when it raises (a
non-dict `error` value, or a non-string message that the subsequent string
concatenation rejects). -/
def failMsgOf (kvs : List (String × Json)) : Option String :=
  match Json.lookup kvs "error" with
  | none => some ""
  | some (Json.obj ekvs) =>
    match Json.lookup ekvs "message" with
    | none => some ""
    | some (Json.str m) => some m
    | some _ => none
  | some _ => none

/-- The message the `error` branch reads, `line_dict.get("message", "")`:
`some` of the string (an absent field gives `""`), `none` when the stored
value is not a string, in which case `re.match` raises. -/
def errMsgOf (kvs : List (String × Json)) : Option String :=
  match Json.lookup kvs "message" with
  | none => some ""
  | some (Json.str m) => some m
  | some _ => none

/-- Whether the `item` handling of an event completes without raising: the
`item` field is absent or a dict, and when it is an `agent_message` its
`text` payload (if read) is a string or absent. -/
def itemOk (kvs : List (String × Json)) : Bool :=
  match Json.lookup kvs "item" with
  | none => true
  | some (Json.obj ikvs) =>
    match pyDictGetD ikvs "type" (Json.str "") with
    | Json.str itemType =>
      if itemType = "agent_message" then
        match Json.lookup ikvs "text" with
        | none => true
        | some (Json.str _) => true
        | some _ => false
      else true
    | _ => true
  | some _ => false

/-- Loop-body steps after `all_messages.append` on an object line, in source
order: the timeout check (which assigns `err_message` and breaks), the
`item` handling, the session-id capture, the `fail` branch and the `error`
branch. -/
def classifyObj (tmoArg : Int) (raw : String) (st : SessionResult)
    (kvs : List (String × Json)) : SessionResult × Control :=
  if isTimeoutType kvs then
    ({ st with success := false,
               err_message := timeoutMsg tmoArg st.agent_messages }, Control.brk)
  else
    match itemStep raw st kvs with
    | Except.error stE => (stE, Control.brk)
    | Except.ok st1 =>
      match failStep raw (threadStep st1 kvs) kvs with
      | Except.error stE => (stE, Control.brk)
      | Except.ok st3 =>
        match errorStep raw st3 kvs with
        | Except.error stE => (stE, Control.brk)
        | Except.ok st4 => (st4, Control.cont)

/-- One iteration of the `for` loop on a successfully decoded line:
`all_messages.append(line_dict)` first, then the object steps.  A non-object
value reaches the first attribute access and lands in the generic exception
handler, which breaks. -/
def classifyDecoded (tmoArg : Int) (raw : String) (st0 : SessionResult) (j : Json) :
    SessionResult × Control :=
  match j with
  | Json.obj kvs =>
    classifyObj tmoArg raw
      { st0 with all_messages := st0.all_messages ++ [Json.obj kvs] } kvs
  | _ =>
    ({ st0 with all_messages := st0.all_messages ++ [j], success := false,
                err_message := st0.err_message ++ unexpectedMsg raw }, Control.brk)

/-- One iteration of the `for` loop on an arbitrary line: a line that fails
to decode only appends the decode diagnostic and continues. -/
def classifyLine (tmoArg : Int) (st : SessionResult) (l : Line) : SessionResult × Control :=
  match l with
  | Line.malformed raw =>
    ({ st with err_message := st.err_message ++ decodeErrMsg raw }, Control.cont)
  | Line.decoded j raw => classifyDecoded tmoArg raw st j

/-- Whether a line is one the timeout branch fires on. -/
def isTimeoutLine : Line → Bool
  | Line.decoded (Json.obj kvs) _ => isTimeoutType kvs
  | _ => false

/-- The whole `for` loop: process lines in order, stopping at the first
iteration that breaks. -/
def processLines (tmoArg : Int) : SessionResult → List Line → SessionResult
  | st, [] => st
  | st, l :: ls =>
    match classifyLine tmoArg st l with
    | (st', Control.cont) => processLines tmoArg st' ls
    | (st', Control.brk) => st'

/-- The post-drain invariant checks: if `thread_id is None and success`,
fail and prepend the `SESSION_ID` diagnostic; then if
`len(agent_messages) == 0 and success`, fail and prepend the
`agent_messages` diagnostic. -/
def aggregate (st : SessionResult) : SessionResult :=
  let st1 :=
    if st.thread_id.isNone ∧ st.success then
      { st with success := false,
                err_message :=
                  "Failed to get `SESSION_ID` from the codex session. \n\n" ++
                    st.err_message }
    else st
  if st1.agent_messages = "" ∧ st1.success then
    { st1 with success := false,
               err_message :=
                 "Failed to get `agent_messages` from the codex session. \n\n You can try to set `return_all_messages` to `True` to get the full reasoning information. " ++
                   st1.err_message }
  else st1

/-- The JSON object `main` prints: on success `SESSION_ID` and
`agent_messages`, on failure `error` plus `SESSION_ID` when truthy;
`all_messages` only under `--return-all-messages`. -/
structure FinalResult where
  success : Bool
  SESSION_ID : Option Json
  agent_messages : Option String
  error : Option String
  all_messages : Option (List Json)

/-- Build the printed result object from the drained accumulator. -/
def buildResult (return_all_messages : Bool) (st : SessionResult) : FinalResult :=
  let base : FinalResult :=
    if st.success then
      { success := true, SESSION_ID := st.thread_id,
        agent_messages := some st.agent_messages, error := none,
        all_messages := none }
    else
      { success := false,
        SESSION_ID :=
          match st.thread_id with
          | some v => if jsonTruthy v then some v else none
          | none => none,
        agent_messages := none, error := some st.err_message,
        all_messages := none }
  if return_all_messages then { base with all_messages := some st.all_messages }
  else base

/-- End-to-end run of the classification loop, the post-drain checks and the
result construction on a given stream of lines. -/
def runBridge (tmoArg : Int) (return_all_messages : Bool) (lines : List Line) : FinalResult :=
  buildResult return_all_messages (aggregate (processLines tmoArg initialState lines))

/-- Exit status of `main`: the script prints the result object and falls off
the end of `main` without ever calling `sys.exit`, so every run that reaches
the final print terminates with status 0. -/
def mainExitCode (_res : FinalResult) : Nat := 0

/-- The synthetic timeout event `run_shell_command` yields when the deadline
is exceeded: `{"type": "timeout", "error": {"message": "Codex execution
exceeded <timeout>s timeout limit"}}`. -/
def timeoutLine (tmo : Int) : Line :=
  Line.decoded
    (Json.obj [("type", Json.str "timeout"),
               ("error", Json.obj [("message",
                 Json.str ("Codex execution exceeded " ++ toString tmo ++ "s timeout limit"))])])
    ""

/-- A `thread.started` wire event carrying a session identifier.  The raw
text is unused on this event's processing path. -/
def threadStartedLine (sid : String) : Line :=
  Line.decoded (Json.obj [("type", Json.str "thread.started"),
                          ("thread_id", Json.str sid)]) ""

/-- The JSON value of an `item.completed` event wrapping an `agent_message`
item with the given text. -/
def agentMsgJson (t : String) : Json :=
  Json.obj [("type", Json.str "item.completed"),
            ("item", Json.obj [("type", Json.str "agent_message"),
                               ("text", Json.str t)])]

/-- An `item.completed` wire event wrapping an `agent_message` item. -/
def agentMsgLine (t : String) : Line := Line.decoded (agentMsgJson t) ""

/-- The `turn.completed` wire event. -/
def turnCompletedLine : Line :=
  Line.decoded (Json.obj [("type", Json.str "turn.completed")]) ""

/-- A transient reconnect notice as it appears on the wire. -/
def reconnectEvent : Json :=
  Json.obj [("type", Json.str "error"),
            ("message", Json.str "Reconnecting... 2/5")]

/-- The reconnect notice as a stream line. -/
def reconnectLine : Line := Line.decoded reconnectEvent ""

/-- The three-line success scenario of the specification. -/
def c4lines : List Line :=
  [threadStartedLine "abc123", agentMsgLine "Hello", turnCompletedLine]

/-- Concatenation of a list of message texts in arrival order. -/
def concatTexts : List String → String
  | [] => ""
  | t :: ts => t ++ concatTexts ts

/-- A state `r` extends `st` when `agent_messages` and `err_message` are each
obtained from `st`'s by appending (possibly empty) text. -/
def extendsSt (st r : SessionResult) : Prop :=
  (∃ t, r.agent_messages = st.agent_messages ++ t) ∧
  (∃ t, r.err_message = st.err_message ++ t)


theorem strAppend_empty (a : String) : a ++ "" = a := by
  cases a with
  | mk data => show String.mk (data ++ []) = String.mk data
               rw [List.append_nil]

theorem strEmpty_append (a : String) : "" ++ a = a := rfl

theorem strAppend_assoc (a b c : String) : a ++ b ++ c = a ++ (b ++ c) := by
  cases a with
  | mk da => cases b with
    | mk db => cases c with
      | mk dc => show String.mk (da ++ db ++ dc) = String.mk (da ++ (db ++ dc))
                 rw [List.append_assoc]

theorem toList_strAppend (a b : String) : (a ++ b).toList = a.toList ++ b.toList := by
  cases a with
  | mk da => cases b with
    | mk db => rfl

theorem startsWithList_append (pat rest : List Char) :
    startsWithList (pat ++ rest) pat = true := by
  induction pat with
  | nil => simp [startsWithList]
  | cons c cs ih => simp [startsWithList, ih]

theorem strPrefixOfB_append (a t : String) : strPrefixOfB a (a ++ t) = true := by
  unfold strPrefixOfB
  rw [toList_strAppend]
  exact startsWithList_append a.toList t.toList

theorem failPolicy_agent (st : SessionResult) :
    (failPolicy st).agent_messages = st.agent_messages := by
  unfold failPolicy; split <;> rfl

theorem failPolicy_err (st : SessionResult) :
    (failPolicy st).err_message = st.err_message := by
  unfold failPolicy; split <;> rfl

theorem failPolicy_thread (st : SessionResult) :
    (failPolicy st).thread_id = st.thread_id := by
  unfold failPolicy; split <;> rfl

theorem itemStep_cases (raw : String) (st : SessionResult) (kvs : List (String × Json)) :
    itemStep raw st kvs = Except.ok st
    ∨ (∃ t, itemStep raw st kvs = Except.ok { st with agent_messages := st.agent_messages ++ t })
    ∨ itemStep raw st kvs = Except.error (raiseUnexpected raw st) := by
  unfold itemStep
  repeat' split
  all_goals first
    | exact Or.inl rfl
    | exact Or.inr (Or.inl ⟨_, rfl⟩)
    | exact Or.inr (Or.inr rfl)

theorem failStep_cases (raw : String) (st : SessionResult) (kvs : List (String × Json)) :
    failStep raw st kvs = Except.ok st
    ∨ (∃ m, failStep raw st kvs
        = Except.ok { failPolicy st with
            err_message := (failPolicy st).err_message ++ ("\n\n[codex error] " ++ m) })
    ∨ failStep raw st kvs = Except.error (raiseUnexpected raw (failPolicy st))
    ∨ failStep raw st kvs = Except.error (raiseUnexpected raw st) := by
  unfold failStep
  repeat' split
  all_goals first
    | exact Or.inl rfl
    | exact Or.inr (Or.inl ⟨_, rfl⟩)
    | exact Or.inr (Or.inr (Or.inl rfl))
    | exact Or.inr (Or.inr (Or.inr rfl))

theorem errorStep_cases (raw : String) (st : SessionResult) (kvs : List (String × Json)) :
    errorStep raw st kvs = Except.ok st
    ∨ (∃ m, errorStep raw st kvs
        = Except.ok { failPolicy st with
            err_message := (failPolicy st).err_message ++ ("\n\n[codex error] " ++ m) })
    ∨ errorStep raw st kvs = Except.error (raiseUnexpected raw st) := by
  unfold errorStep
  repeat' split
  all_goals first
    | exact Or.inl rfl
    | exact Or.inr (Or.inl ⟨_, rfl⟩)
    | exact Or.inr (Or.inr rfl)

theorem threadStep_agent (st : SessionResult) (kvs : List (String × Json)) :
    (threadStep st kvs).agent_messages = st.agent_messages := by
  unfold threadStep; split <;> rfl

theorem threadStep_err (st : SessionResult) (kvs : List (String × Json)) :
    (threadStep st kvs).err_message = st.err_message := by
  unfold threadStep; split <;> rfl

theorem extendsSt_refl (st : SessionResult) : extendsSt st st :=
  ⟨⟨"", (strAppend_empty _).symm⟩, ⟨"", (strAppend_empty _).symm⟩⟩

theorem extendsSt_trans {a b c : SessionResult} (h1 : extendsSt a b)
    (h2 : extendsSt b c) : extendsSt a c := by
  obtain ⟨⟨t1, hg1⟩, ⟨u1, he1⟩⟩ := h1
  obtain ⟨⟨t2, hg2⟩, ⟨u2, he2⟩⟩ := h2
  exact ⟨⟨t1 ++ t2, by rw [hg2, hg1, strAppend_assoc]⟩,
         ⟨u1 ++ u2, by rw [he2, he1, strAppend_assoc]⟩⟩

theorem itemStep_extends (raw : String) (st : SessionResult) (kvs : List (String × Json))
    (r : SessionResult)
    (h : itemStep raw st kvs = Except.ok r ∨ itemStep raw st kvs = Except.error r) :
    extendsSt st r := by
  rcases itemStep_cases raw st kvs with hc | ⟨t, hc⟩ | hc <;>
    rcases h with h | h <;> rw [hc] at h <;>
    simp only [Except.ok.injEq, Except.error.injEq, reduceCtorEq] at h <;> subst h
  · exact extendsSt_refl st
  · exact ⟨⟨t, rfl⟩, ⟨"", (strAppend_empty _).symm⟩⟩
  · exact ⟨⟨"", (strAppend_empty _).symm⟩, ⟨unexpectedMsg raw, rfl⟩⟩

theorem extends_failPolicy (st : SessionResult) : extendsSt st (failPolicy st) := by
  refine ⟨⟨"", ?_⟩, ⟨"", ?_⟩⟩
  · rw [strAppend_empty, failPolicy_agent]
  · rw [strAppend_empty, failPolicy_err]

theorem failStep_extends (raw : String) (st : SessionResult) (kvs : List (String × Json))
    (r : SessionResult)
    (h : failStep raw st kvs = Except.ok r ∨ failStep raw st kvs = Except.error r) :
    extendsSt st r := by
  rcases failStep_cases raw st kvs with hc | ⟨m, hc⟩ | hc | hc <;>
    rcases h with h | h <;> rw [hc] at h <;>
    simp only [Except.ok.injEq, Except.error.injEq, reduceCtorEq] at h <;> subst h
  · exact extendsSt_refl st
  · refine extendsSt_trans (extends_failPolicy st) ⟨⟨"", (strAppend_empty _).symm⟩, ⟨_, rfl⟩⟩
  · exact extendsSt_trans (extends_failPolicy st)
      ⟨⟨"", (strAppend_empty _).symm⟩, ⟨unexpectedMsg raw, rfl⟩⟩
  · exact ⟨⟨"", (strAppend_empty _).symm⟩, ⟨unexpectedMsg raw, rfl⟩⟩

theorem errorStep_extends (raw : String) (st : SessionResult) (kvs : List (String × Json))
    (r : SessionResult)
    (h : errorStep raw st kvs = Except.ok r ∨ errorStep raw st kvs = Except.error r) :
    extendsSt st r := by
  rcases errorStep_cases raw st kvs with hc | ⟨m, hc⟩ | hc <;>
    rcases h with h | h <;> rw [hc] at h <;>
    simp only [Except.ok.injEq, Except.error.injEq, reduceCtorEq] at h <;> subst h
  · exact extendsSt_refl st
  · refine extendsSt_trans (extends_failPolicy st) ⟨⟨"", (strAppend_empty _).symm⟩, ⟨_, rfl⟩⟩
  · exact ⟨⟨"", (strAppend_empty _).symm⟩, ⟨unexpectedMsg raw, rfl⟩⟩

theorem threadStep_extends (st : SessionResult) (kvs : List (String × Json)) :
    extendsSt st (threadStep st kvs) := by
  refine ⟨⟨"", ?_⟩, ⟨"", ?_⟩⟩
  · rw [strAppend_empty, threadStep_agent]
  · rw [strAppend_empty, threadStep_err]

theorem classifyObj_extends (tmoArg : Int) (raw : String) (st : SessionResult)
    (kvs : List (String × Json)) (hTO : isTimeoutType kvs = false) :
    extendsSt st (classifyObj tmoArg raw st kvs).1 := by
  unfold classifyObj
  rw [hTO]
  simp only [Bool.false_eq_true, if_false]
  cases hI : itemStep raw st kvs with
  | error stE => exact itemStep_extends raw st kvs stE (Or.inr hI)
  | ok st1 =>
    have e1 : extendsSt st st1 := itemStep_extends raw st kvs st1 (Or.inl hI)
    have e2 : extendsSt st (threadStep st1 kvs) :=
      extendsSt_trans e1 (threadStep_extends st1 kvs)
    dsimp only
    cases hF : failStep raw (threadStep st1 kvs) kvs with
    | error stE =>
      exact extendsSt_trans e2 (failStep_extends raw _ kvs stE (Or.inr hF))
    | ok st3 =>
      have e3 : extendsSt st st3 :=
        extendsSt_trans e2 (failStep_extends raw _ kvs st3 (Or.inl hF))
      dsimp only
      cases hE : errorStep raw st3 kvs with
      | error stE =>
        exact extendsSt_trans e3 (errorStep_extends raw st3 kvs stE (Or.inr hE))
      | ok st4 =>
        exact extendsSt_trans e3 (errorStep_extends raw st3 kvs st4 (Or.inl hE))

theorem classifyLine_agent_extends (tmoArg : Int) (st : SessionResult) (l : Line) :
    ∃ t, (classifyLine tmoArg st l).1.agent_messages = st.agent_messages ++ t := by
  cases l with
  | malformed raw => exact ⟨"", (strAppend_empty _).symm⟩
  | decoded j raw =>
    cases j with
    | obj kvs =>
      show ∃ t, (classifyObj tmoArg raw
        { st with all_messages := st.all_messages ++ [Json.obj kvs] } kvs).1.agent_messages
          = st.agent_messages ++ t
      by_cases hTO : isTimeoutType kvs = true
      · unfold classifyObj
        rw [hTO]
        simp only [if_true]
        exact ⟨"", (strAppend_empty _).symm⟩
      · rw [Bool.not_eq_true] at hTO
        exact (classifyObj_extends tmoArg raw _ kvs hTO).1
    | null => exact ⟨"", (strAppend_empty _).symm⟩
    | bool b => exact ⟨"", (strAppend_empty _).symm⟩
    | num n => exact ⟨"", (strAppend_empty _).symm⟩
    | str s => exact ⟨"", (strAppend_empty _).symm⟩
    | arr es => exact ⟨"", (strAppend_empty _).symm⟩

theorem classifyLine_err_extends (tmoArg : Int) (st : SessionResult) (l : Line)
    (hl : isTimeoutLine l = false) :
    ∃ t, (classifyLine tmoArg st l).1.err_message = st.err_message ++ t := by
  cases l with
  | malformed raw => exact ⟨decodeErrMsg raw, rfl⟩
  | decoded j raw =>
    cases j with
    | obj kvs =>
      have hTO : isTimeoutType kvs = false := hl
      exact (classifyObj_extends tmoArg raw
        { st with all_messages := st.all_messages ++ [Json.obj kvs] } kvs hTO).2
    | null => exact ⟨unexpectedMsg raw, rfl⟩
    | bool b => exact ⟨unexpectedMsg raw, rfl⟩
    | num n => exact ⟨unexpectedMsg raw, rfl⟩
    | str s => exact ⟨unexpectedMsg raw, rfl⟩
    | arr es => exact ⟨unexpectedMsg raw, rfl⟩

theorem raiseUnexpected_thread (raw : String) (st : SessionResult) :
    (raiseUnexpected raw st).thread_id = st.thread_id := rfl

theorem failStep_thread (raw : String) (st : SessionResult) (kvs : List (String × Json))
    (r : SessionResult)
    (h : failStep raw st kvs = Except.ok r ∨ failStep raw st kvs = Except.error r) :
    r.thread_id = st.thread_id := by
  rcases failStep_cases raw st kvs with hc | ⟨m, hc⟩ | hc | hc <;>
    rcases h with h | h <;> rw [hc] at h <;>
    simp only [Except.ok.injEq, Except.error.injEq, reduceCtorEq] at h <;> subst h
  · rfl
  · exact failPolicy_thread st
  · exact failPolicy_thread st
  · rfl

theorem errorStep_thread (raw : String) (st : SessionResult) (kvs : List (String × Json))
    (r : SessionResult)
    (h : errorStep raw st kvs = Except.ok r ∨ errorStep raw st kvs = Except.error r) :
    r.thread_id = st.thread_id := by
  rcases errorStep_cases raw st kvs with hc | ⟨m, hc⟩ | hc <;>
    rcases h with h | h <;> rw [hc] at h <;>
    simp only [Except.ok.injEq, Except.error.injEq, reduceCtorEq] at h <;> subst h
  · rfl
  · exact failPolicy_thread st
  · rfl

theorem itemStep_thread (raw : String) (st : SessionResult) (kvs : List (String × Json))
    (r : SessionResult)
    (h : itemStep raw st kvs = Except.ok r ∨ itemStep raw st kvs = Except.error r) :
    r.thread_id = st.thread_id := by
  rcases itemStep_cases raw st kvs with hc | ⟨t, hc⟩ | hc <;>
    rcases h with h | h <;> rw [hc] at h <;>
    simp only [Except.ok.injEq, Except.error.injEq, reduceCtorEq] at h <;> subst h
  · rfl
  · rfl
  · rfl

theorem processLines_agent_extends (tmoArg : Int) (lines : List Line) (st : SessionResult) :
    ∃ t, (processLines tmoArg st lines).agent_messages = st.agent_messages ++ t := by
  induction lines generalizing st with
  | nil => exact ⟨"", (strAppend_empty _).symm⟩
  | cons l ls ih =>
    show ∃ t, (match classifyLine tmoArg st l with
      | (st', Control.cont) => processLines tmoArg st' ls
      | (st', Control.brk) => st').agent_messages = st.agent_messages ++ t
    obtain ⟨t1, h1⟩ := classifyLine_agent_extends tmoArg st l
    cases hc : classifyLine tmoArg st l with
    | mk st' ctl =>
      rw [hc] at h1
      cases ctl with
      | brk => exact ⟨t1, h1⟩
      | cont =>
        obtain ⟨t2, h2⟩ := ih st'
        exact ⟨t1 ++ t2, by rw [h2, h1, strAppend_assoc]⟩

theorem classify_threadStarted (tmoArg : Int) (st : SessionResult) (sid : String) :
    classifyLine tmoArg st (threadStartedLine sid)
      = ({ st with
            all_messages := st.all_messages ++
              [Json.obj [("type", Json.str "thread.started"),
                         ("thread_id", Json.str sid)]],
            thread_id := some (Json.str sid) }, Control.cont) := rfl

theorem classify_agentMsg (tmoArg : Int) (st : SessionResult) (t : String) :
    classifyLine tmoArg st (agentMsgLine t)
      = ({ st with
            all_messages := st.all_messages ++ [agentMsgJson t],
            agent_messages := st.agent_messages ++ t }, Control.cont) := rfl

theorem classify_turnCompleted (tmoArg : Int) (st : SessionResult) :
    classifyLine tmoArg st turnCompletedLine
      = ({ st with
            all_messages := st.all_messages ++
              [Json.obj [("type", Json.str "turn.completed")]] }, Control.cont) := rfl

theorem agentTexts_concat (tmoArg : Int) (texts : List String) (st : SessionResult) :
    (processLines tmoArg st (texts.map agentMsgLine ++ [turnCompletedLine])).agent_messages
      = st.agent_messages ++ concatTexts texts := by
  induction texts generalizing st with
  | nil =>
    show (processLines tmoArg st [turnCompletedLine]).agent_messages
      = st.agent_messages ++ ""
    rw [strAppend_empty]
    rfl
  | cons t ts ih =>
    show (match classifyLine tmoArg st (agentMsgLine t) with
      | (st', Control.cont) => processLines tmoArg st' (ts.map agentMsgLine ++ [turnCompletedLine])
      | (st', Control.brk) => st').agent_messages = st.agent_messages ++ concatTexts (t :: ts)
    rw [classify_agentMsg]
    show (processLines tmoArg _ (ts.map agentMsgLine ++ [turnCompletedLine])).agent_messages
      = st.agent_messages ++ concatTexts (t :: ts)
    rw [ih]
    show st.agent_messages ++ t ++ concatTexts ts = st.agent_messages ++ (t ++ concatTexts ts)
    rw [strAppend_assoc]

theorem threadStep_success (st : SessionResult) (kvs : List (String × Json)) :
    (threadStep st kvs).success = st.success := by
  unfold threadStep; split <;> rfl

theorem threadStep_thread (st : SessionResult) (kvs : List (String × Json)) :
    (threadStep st kvs).thread_id
      = match pyDictGet kvs "thread_id" with
        | some v => some v
        | none => st.thread_id := by
  unfold threadStep
  cases h : pyDictGet kvs "thread_id" <;> rfl

theorem failPolicy_success_eq (st : SessionResult) :
    (failPolicy st).success = if st.agent_messages = "" then false else st.success := by
  unfold failPolicy
  by_cases h : st.agent_messages = ""
  · rw [if_pos h, if_pos h]
  · rw [if_neg h, if_neg h]

/-- Claim C4: on the three-line stream `thread.started` (id `abc123`),
`item.completed`/`agent_message` (text `Hello`), `turn.completed`, the final
result has `success = true`, session id `abc123` and agent text `Hello`. -/
theorem claim_C4_success_scenario :
    (runBridge 600 false c4lines).success = true
    ∧ (runBridge 600 false c4lines).SESSION_ID = some (Json.str "abc123")
    ∧ (runBridge 600 false c4lines).agent_messages = some "Hello" :=
  ⟨rfl, rfl, rfl⟩

/-- Claim C8: a line that fails JSON decoding appends the decode diagnostic
to `err_message`, leaves `success` (and the whole remaining state) unchanged,
and processing continues with the rest of the stream. -/
theorem claim_C8_malformed_recoverable (tmoArg : Int) (raw : String)
    (st : SessionResult) (rest : List Line) :
    classifyLine tmoArg st (Line.malformed raw)
        = ({ st with err_message := st.err_message ++ decodeErrMsg raw }, Control.cont)
    ∧ (classifyLine tmoArg st (Line.malformed raw)).1.success = st.success
    ∧ processLines tmoArg st (Line.malformed raw :: rest)
        = processLines tmoArg { st with err_message := st.err_message ++ decodeErrMsg raw } rest :=
  ⟨rfl, rfl, rfl⟩

/-- Claim C10: a line that decodes to a non-object JSON value hits the
generic exception handler: the value is still appended to `all_messages`,
the unexpected-error diagnostic is recorded, `success` is forced to `false`
unconditionally, and the loop breaks, dropping all later lines. -/
theorem claim_C10_nonobject_aborts (tmoArg : Int) (raw : String) (st : SessionResult)
    (rest : List Line) (j : Json) (h : j.isObj = false) :
    processLines tmoArg st (Line.decoded j raw :: rest)
      = { st with all_messages := st.all_messages ++ [j], success := false,
                  err_message := st.err_message ++ unexpectedMsg raw } := by
  cases j with
  | obj kvs => simp [Json.isObj] at h
  | null => rfl
  | bool b => rfl
  | num n => rfl
  | str s => rfl
  | arr es => rfl

/-- Witness for C10: a bare JSON array aborts processing even though a
well-formed `thread.started` line follows, and forces `success = false`. -/
theorem claim_C10_witness :
    processLines 600 initialState
        [Line.decoded (Json.arr [Json.num 1, Json.num 2]) "[1, 2]",
         threadStartedLine "abc123"]
      = { initialState with
            all_messages := initialState.all_messages ++ [Json.arr [Json.num 1, Json.num 2]],
            success := false,
            err_message := initialState.err_message ++ unexpectedMsg "[1, 2]" } :=
  claim_C10_nonobject_aborts 600 "[1, 2]" initialState [threadStartedLine "abc123"]
    (Json.arr [Json.num 1, Json.num 2]) rfl

/-- Counterexample to claim C5: a failing run and a succeeding run terminate
with the same exit status, because `main` never calls `sys.exit`. -/
theorem claim_C5_counterexample :
    (runBridge 600 false c4lines).success = true
    ∧ (runBridge 600 false []).success = false
    ∧ mainExitCode (runBridge 600 false c4lines) = mainExitCode (runBridge 600 false []) :=
  ⟨rfl, rfl, rfl⟩

/-- Claim C5 as amended: the supervisor's exit status is 0 for every run
that reaches the final print, regardless of the result's `success` value;
success is reported only inside the printed JSON object. -/
theorem claim_C5_exit_status (tmoArg : Int) (retAll : Bool) (lines : List Line) :
    mainExitCode (runBridge tmoArg retAll lines) = 0 := rfl

/-- Counterexample to claim C1: a later `thread.started` event carrying an
empty identifier overwrites the previously captured `abc123`. -/
theorem claim_C1_counterexample :
    (processLines 600 initialState
        [threadStartedLine "abc123", threadStartedLine ""]).thread_id
      = some (Json.str "")
    ∧ (some (Json.str "") : Option Json) ≠ some (Json.str "abc123") := by
  refine ⟨rfl, ?_⟩
  intro h
  have h2 : Json.str "" = Json.str "abc123" := Option.some.inj h
  have h3 : "" = "abc123" := by injection h2
  exact absurd h3 (by decide)

/-- Counterexample to claim C3: a stream whose `thread.started` event
carries an empty-string `thread_id` ends with `success = true` and session
id `""` — the aggregator's check is `thread_id is None`, so a captured empty
string does not trigger the override or any diagnostic. -/
theorem claim_C3_counterexample :
    (runBridge 600 false
        [threadStartedLine "", agentMsgLine "Hello", turnCompletedLine]).success = true
    ∧ (runBridge 600 false
        [threadStartedLine "", agentMsgLine "Hello", turnCompletedLine]).SESSION_ID
      = some (Json.str "") :=
  ⟨rfl, rfl⟩

/-- Claim C3 as amended: when the drained accumulator still has
`success = true`, the aggregator overrides `success` to `false` and prepends
a `Failed to get` diagnostic whenever `thread_id` was never captured (is
`None`) or `agent_messages` is empty; this fires no matter how the state
arose, in particular for streams with no failure, error or timeout event. -/
theorem claim_C3_closing_invariants (st : SessionResult) (h : st.success = true)
    (hviol : st.thread_id = none ∨ st.agent_messages = "") :
    (aggregate st).success = false
    ∧ ∃ pre, pre ≠ ""
        ∧ strContainsB pre "Failed to get" = true
        ∧ (aggregate st).err_message = pre ++ st.err_message := by
  unfold aggregate
  rcases hviol with hv | hv
  · rw [hv]
    simp only [Option.isNone_none, h, and_self, if_pos, true_and]
    refine ⟨by simp, ?_⟩
    split
    · exact ⟨"Failed to get `agent_messages` from the codex session. \n\n You can try to set `return_all_messages` to `True` to get the full reasoning information. " ++ "Failed to get `SESSION_ID` from the codex session. \n\n",
        by decide, by decide, by rw [strAppend_assoc]⟩
    · exact ⟨"Failed to get `SESSION_ID` from the codex session. \n\n",
        by decide, by decide, rfl⟩
  · by_cases ht : st.thread_id.isNone = true
    · rw [hv]
      simp only [ht, h, and_self, if_pos, true_and]
      refine ⟨by simp, ?_⟩
      split
      · exact ⟨"Failed to get `agent_messages` from the codex session. \n\n You can try to set `return_all_messages` to `True` to get the full reasoning information. " ++ "Failed to get `SESSION_ID` from the codex session. \n\n",
          by decide, by decide, by rw [strAppend_assoc]⟩
      · exact ⟨"Failed to get `SESSION_ID` from the codex session. \n\n",
          by decide, by decide, rfl⟩
    · rw [Bool.not_eq_true] at ht
      have hcond : ¬(st.thread_id.isNone = true ∧ st.success = true) := by
        rw [ht]; intro hc; exact absurd hc.1 (by decide)
      rw [if_neg hcond, if_pos ⟨hv, h⟩]
      exact ⟨rfl, ⟨"Failed to get `agent_messages` from the codex session. \n\n You can try to set `return_all_messages` to `True` to get the full reasoning information. ",
        by decide, by decide, rfl⟩⟩

/-- Witness for C3: the empty stream (no failure, error or timeout event
ever seen) is overridden to `success = false` with a prepended diagnostic. -/
theorem claim_C3_witness :
    (aggregate initialState).success = false
    ∧ ∃ pre, pre ≠ ""
        ∧ strContainsB pre "Failed to get" = true
        ∧ (aggregate initialState).err_message = pre ++ initialState.err_message :=
  claim_C3_closing_invariants initialState rfl (Or.inl rfl)

/-- Claim C7 as amended: for every classified line except a timeout event,
the previous `err_message` is a prefix of the new one; the timeout branch
instead replaces `err_message` wholesale with the `[TIMEOUT]` diagnostic. -/
theorem claim_C7_append_only (tmoArg : Int) (st : SessionResult) (l : Line)
    (h : isTimeoutLine l = false) :
    strPrefixOfB st.err_message (classifyLine tmoArg st l).1.err_message = true := by
  obtain ⟨t, ht⟩ := classifyLine_err_extends tmoArg st l h
  rw [ht]
  exact strPrefixOfB_append _ _

/-- Witness for C7: a malformed line appended on top of the initial state
keeps the old diagnostics as a prefix. -/
theorem claim_C7_witness :
    isTimeoutLine (Line.malformed "oops") = false
    ∧ strPrefixOfB initialState.err_message
        (classifyLine 600 initialState (Line.malformed "oops")).1.err_message = true :=
  ⟨rfl, claim_C7_append_only 600 initialState (Line.malformed "oops") rfl⟩

/-- Counterexample to claim C7: after a decode diagnostic has accumulated,
processing the synthetic timeout event assigns (rather than appends to)
`err_message`, so the old value is no longer a prefix of the new one. -/
theorem claim_C7_counterexample :
    strPrefixOfB (processLines 600 initialState [Line.malformed "oops"]).err_message
      (classifyLine 600 (processLines 600 initialState [Line.malformed "oops"])
        (timeoutLine 600)).1.err_message = false := by
  rfl

/-- Claim C9: for a well-formed stream (`thread.started`, one or more
`agent_message` items, `turn.completed`) the final `agent_messages` is the
concatenation of the message texts in arrival order; moreover processing any
lines from any state only ever appends to `agent_messages`, so every
intermediate value is a prefix of every later one. -/
theorem claim_C9_agent_text (tmoArg : Int) (sid : String) (texts : List String)
    (h : texts ≠ []) :
    (processLines tmoArg initialState
        (threadStartedLine sid :: (texts.map agentMsgLine ++ [turnCompletedLine]))).agent_messages
      = concatTexts texts
    ∧ ∀ (st : SessionResult) (lines : List Line),
        strPrefixOfB st.agent_messages
          (processLines tmoArg st lines).agent_messages = true := by
  constructor
  · show (match classifyLine tmoArg initialState (threadStartedLine sid) with
      | (st', Control.cont) =>
          processLines tmoArg st' (texts.map agentMsgLine ++ [turnCompletedLine])
      | (st', Control.brk) => st').agent_messages = concatTexts texts
    rw [classify_threadStarted]
    dsimp only
    rw [agentTexts_concat]
    exact strEmpty_append _
  · intro st lines
    obtain ⟨t, ht⟩ := processLines_agent_extends tmoArg lines st
    rw [ht]
    exact strPrefixOfB_append _ _

/-- Witness for C9: the two-message stream `Hello`, ` world` concatenates in
order. -/
theorem claim_C9_witness :
    (["Hello", " world"] : List String) ≠ []
    ∧ ((processLines 600 initialState
        (threadStartedLine "abc"
          :: ((["Hello", " world"] : List String).map agentMsgLine ++ [turnCompletedLine]))).agent_messages
      = concatTexts ["Hello", " world"]
    ∧ ∀ (st : SessionResult) (lines : List Line),
        strPrefixOfB st.agent_messages
          (processLines 600 st lines).agent_messages = true) :=
  ⟨by decide, claim_C9_agent_text 600 "abc" ["Hello", " world"] (by decide)⟩

/-- Counterexample to claim C6: processing a transient reconnect notice does
change the accumulator — the event is appended to `all_messages`
(`all_events`), which claim C6 asserts stays exactly as it was. -/
theorem claim_C6_counterexample :
    (classifyLine 600 initialState reconnectLine).1.all_messages
      ≠ initialState.all_messages := by
  intro h
  have h2 : ([reconnectEvent] : List Json) = [] := h
  exact List.cons_ne_nil _ _ h2

/-- Claim C6 as amended: a transient reconnect error event (type containing
`error` and not `fail`, message matching the reconnect pattern, no item or
thread-id payload) leaves `success`, `thread_id`, `agent_messages` and
`err_message` untouched and continues the loop; its only effect is being
appended to `all_messages`.  Consequently, with full-trace mode off,
prepending the reconnect notice to the success scenario yields an identical
final result. -/
theorem claim_C6_reconnect_ignored (tmoArg : Int) (raw : String) (st : SessionResult)
    (kvs : List (String × Json)) (s m : String)
    (htype : Json.lookup kvs "type" = some (Json.str s))
    (he : strContainsB s "error" = true)
    (hnf : strContainsB s "fail" = false)
    (hmsg : Json.lookup kvs "message" = some (Json.str m))
    (hrec : reconnectMatch m = true)
    (hitem : Json.lookup kvs "item" = none)
    (hthread : Json.lookup kvs "thread_id" = none) :
    classifyLine tmoArg st (Line.decoded (Json.obj kvs) raw)
      = ({ st with all_messages := st.all_messages ++ [Json.obj kvs] }, Control.cont)
    ∧ runBridge 600 false (reconnectLine :: c4lines) = runBridge 600 false c4lines := by
  refine ⟨?_, rfl⟩
  have hsne : s ≠ "timeout" := by
    intro hs
    subst hs
    exact absurd he (by decide)
  have hTO : isTimeoutType kvs = false := by
    simp [isTimeoutType, pyDictGet, htype, hsne]
  have key : ∀ stB : SessionResult, classifyObj tmoArg raw stB kvs = (stB, Control.cont) := by
    intro stB
    unfold classifyObj
    rw [hTO]
    simp only [Bool.false_eq_true, if_false]
    have hI : itemStep raw stB kvs = Except.ok stB := by
      simp [itemStep, hitem]
    rw [hI]
    dsimp only
    have hTh : threadStep stB kvs = stB := by
      simp [threadStep, pyDictGet, hthread]
    rw [hTh]
    have hF : failStep raw stB kvs = Except.ok stB := by
      simp [failStep, pyDictGetD, htype, hnf]
    rw [hF]
    dsimp only
    have hE : errorStep raw stB kvs = Except.ok stB := by
      simp [errorStep, pyDictGetD, htype, hmsg, he, hrec]
    rw [hE]
  exact key { st with all_messages := st.all_messages ++ [Json.obj kvs] }

/-- Witness for C6: the concrete reconnect notice of the specification. -/
theorem claim_C6_witness :
    classifyLine 600 initialState
        (Line.decoded (Json.obj [("type", Json.str "error"),
                                 ("message", Json.str "Reconnecting... 2/5")]) "")
      = ({ initialState with
            all_messages := initialState.all_messages ++
              [Json.obj [("type", Json.str "error"),
                         ("message", Json.str "Reconnecting... 2/5")]] }, Control.cont)
    ∧ runBridge 600 false (reconnectLine :: c4lines) = runBridge 600 false c4lines :=
  claim_C6_reconnect_ignored 600 "" initialState
    [("type", Json.str "error"), ("message", Json.str "Reconnecting... 2/5")]
    "error" "Reconnecting... 2/5" rfl (by decide) (by decide) rfl (by decide) rfl rfl

theorem threadStep_thread_some (st : SessionResult) (kvs : List (String × Json))
    (v : Json) (h : pyDictGet kvs "thread_id" = some v) :
    (threadStep st kvs).thread_id = some v := by
  unfold threadStep
  rw [h]

theorem threadStep_thread_none (st : SessionResult) (kvs : List (String × Json))
    (h : pyDictGet kvs "thread_id" = none) :
    (threadStep st kvs).thread_id = st.thread_id := by
  unfold threadStep
  rw [h]

theorem itemStep_ok_of_itemOk (raw : String) (st : SessionResult)
    (kvs : List (String × Json)) (h : itemOk kvs = true) :
    ∃ st1, itemStep raw st kvs = Except.ok st1 ∧ st1.thread_id = st.thread_id := by
  cases hI : Json.lookup kvs "item" with
  | none => exact ⟨st, by simp [itemStep, hI], rfl⟩
  | some v =>
    cases v with
    | obj ikvs =>
      cases hT : pyDictGetD ikvs "type" (Json.str "") with
      | str itemType =>
        by_cases hA : itemType = "agent_message"
        · subst hA
          cases hX : Json.lookup ikvs "text" with
          | none =>
            exact ⟨{ st with agent_messages := st.agent_messages ++ "" },
              by simp [itemStep, hI, hT, hX], rfl⟩
          | some tv =>
            cases tv with
            | str t =>
              exact ⟨{ st with agent_messages := st.agent_messages ++ t },
                by simp [itemStep, hI, hT, hX], rfl⟩
            | null => exact absurd h (by simp [itemOk, hI, hT, hX])
            | bool b => exact absurd h (by simp [itemOk, hI, hT, hX])
            | num n => exact absurd h (by simp [itemOk, hI, hT, hX])
            | arr es => exact absurd h (by simp [itemOk, hI, hT, hX])
            | obj fs => exact absurd h (by simp [itemOk, hI, hT, hX])
        · exact ⟨st, by simp [itemStep, hI, hT, hA], rfl⟩
      | null => exact ⟨st, by simp [itemStep, hI, hT], rfl⟩
      | bool b => exact ⟨st, by simp [itemStep, hI, hT], rfl⟩
      | num n => exact ⟨st, by simp [itemStep, hI, hT], rfl⟩
      | arr es => exact ⟨st, by simp [itemStep, hI, hT], rfl⟩
      | obj fs => exact ⟨st, by simp [itemStep, hI, hT], rfl⟩
    | null => exact absurd h (by simp [itemOk, hI])
    | bool b => exact absurd h (by simp [itemOk, hI])
    | num n => exact absurd h (by simp [itemOk, hI])
    | str s2 => exact absurd h (by simp [itemOk, hI])
    | arr es => exact absurd h (by simp [itemOk, hI])

theorem itemStep_error_of_not_itemOk (raw : String) (st : SessionResult)
    (kvs : List (String × Json)) (h : itemOk kvs = false) :
    itemStep raw st kvs = Except.error (raiseUnexpected raw st) := by
  cases hI : Json.lookup kvs "item" with
  | none => exact absurd h (by simp [itemOk, hI])
  | some v =>
    cases v with
    | obj ikvs =>
      cases hT : pyDictGetD ikvs "type" (Json.str "") with
      | str itemType =>
        by_cases hA : itemType = "agent_message"
        · subst hA
          cases hX : Json.lookup ikvs "text" with
          | none => exact absurd h (by simp [itemOk, hI, hT, hX])
          | some tv =>
            cases tv with
            | str t => exact absurd h (by simp [itemOk, hI, hT, hX])
            | null => simp [itemStep, hI, hT, hX]
            | bool b => simp [itemStep, hI, hT, hX]
            | num n => simp [itemStep, hI, hT, hX]
            | arr es => simp [itemStep, hI, hT, hX]
            | obj fs => simp [itemStep, hI, hT, hX]
        · exact absurd h (by simp [itemOk, hI, hT, hA])
      | null => exact absurd h (by simp [itemOk, hI, hT])
      | bool b => exact absurd h (by simp [itemOk, hI, hT])
      | num n => exact absurd h (by simp [itemOk, hI, hT])
      | arr es => exact absurd h (by simp [itemOk, hI, hT])
      | obj fs => exact absurd h (by simp [itemOk, hI, hT])
    | null => simp [itemStep, hI]
    | bool b => simp [itemStep, hI]
    | num n => simp [itemStep, hI]
    | str s2 => simp [itemStep, hI]
    | arr es => simp [itemStep, hI]

/-- Claim C1 as amended: a timeout-typed event, and an event whose `item`
payload makes the classifier raise, break out of the loop before the
session-id capture and leave `thread_id` unchanged even when they carry one.
Every other object event sets `thread_id` to the event's `thread_id` value
whenever that field is present and non-null — overwriting any previously
captured value, including with a different or empty string — and leaves it
unchanged when the field is absent or null. -/
theorem claim_C1_session_overwrite (tmoArg : Int) (raw : String) (st : SessionResult)
    (kvs kvsT kvsB : List (String × Json))
    (hTO : isTimeoutType kvs = false) (hitem : itemOk kvs = true)
    (hT : isTimeoutType kvsT = true)
    (hBTO : isTimeoutType kvsB = false) (hBitem : itemOk kvsB = false) :
    ((classifyLine tmoArg st (Line.decoded (Json.obj kvs) raw)).1.thread_id
        = match pyDictGet kvs "thread_id" with
          | some v => some v
          | none => st.thread_id)
    ∧ (classifyLine tmoArg st (Line.decoded (Json.obj kvsT) raw)).1.thread_id
        = st.thread_id
    ∧ (classifyLine tmoArg st (Line.decoded (Json.obj kvsB) raw)).1.thread_id
        = st.thread_id := by
  refine ⟨?_, ?_, ?_⟩
  · have key : ∀ stA : SessionResult,
        (classifyObj tmoArg raw stA kvs).1.thread_id
          = match pyDictGet kvs "thread_id" with
            | some v => some v
            | none => stA.thread_id := by
      intro stA
      unfold classifyObj
      rw [hTO]
      simp only [Bool.false_eq_true, if_false]
      obtain ⟨st1, hI, h1thr⟩ := itemStep_ok_of_itemOk raw stA kvs hitem
      rw [hI]
      dsimp only
      have hth : (threadStep st1 kvs).thread_id
          = match pyDictGet kvs "thread_id" with
            | some v => some v
            | none => stA.thread_id := by
        cases hG : pyDictGet kvs "thread_id" with
        | some v => rw [threadStep_thread_some st1 kvs v hG]
        | none => rw [threadStep_thread_none st1 kvs hG]; exact h1thr
      cases hF : failStep raw (threadStep st1 kvs) kvs with
      | error stE =>
        dsimp only
        rw [failStep_thread raw _ kvs stE (Or.inr hF)]
        exact hth
      | ok st3 =>
        dsimp only
        cases hE : errorStep raw st3 kvs with
        | error stE =>
          dsimp only
          rw [errorStep_thread raw st3 kvs stE (Or.inr hE),
              failStep_thread raw _ kvs st3 (Or.inl hF)]
          exact hth
        | ok st4 =>
          dsimp only
          rw [errorStep_thread raw st3 kvs st4 (Or.inl hE),
              failStep_thread raw _ kvs st3 (Or.inl hF)]
          exact hth
    exact key { st with all_messages := st.all_messages ++ [Json.obj kvs] }
  · show (classifyObj tmoArg raw
      { st with all_messages := st.all_messages ++ [Json.obj kvsT] } kvsT).1.thread_id
        = st.thread_id
    unfold classifyObj
    rw [if_pos hT]
  · show (classifyObj tmoArg raw
      { st with all_messages := st.all_messages ++ [Json.obj kvsB] } kvsB).1.thread_id
        = st.thread_id
    unfold classifyObj
    rw [hBTO]
    simp only [Bool.false_eq_true, if_false]
    rw [itemStep_error_of_not_itemOk raw _ kvsB hBitem]
    rfl

/-- Witness for C1: an empty identifier overwrites a previously captured
`abc123`, while a timeout event and a malformed-item event carrying a
`thread_id` leave the captured value untouched. -/
theorem claim_C1_witness :
    ((classifyLine 600
        { all_messages := [], agent_messages := "", success := true,
          err_message := "", thread_id := some (Json.str "abc123") }
        (Line.decoded (Json.obj [("type", Json.str "thread.started"),
                                 ("thread_id", Json.str "")]) "")).1.thread_id
        = some (Json.str ""))
    ∧ (classifyLine 600
        { all_messages := [], agent_messages := "", success := true,
          err_message := "", thread_id := some (Json.str "abc123") }
        (Line.decoded (Json.obj [("type", Json.str "timeout"),
                                 ("thread_id", Json.str "zzz")]) "")).1.thread_id
        = some (Json.str "abc123")
    ∧ (classifyLine 600
        { all_messages := [], agent_messages := "", success := true,
          err_message := "", thread_id := some (Json.str "abc123") }
        (Line.decoded (Json.obj [("item", Json.str "bad"),
                                 ("thread_id", Json.str "zzz")]) "")).1.thread_id
        = some (Json.str "abc123") :=
  claim_C1_session_overwrite 600 ""
    { all_messages := [], agent_messages := "", success := true,
      err_message := "", thread_id := some (Json.str "abc123") }
    [("type", Json.str "thread.started"), ("thread_id", Json.str "")]
    [("type", Json.str "timeout"), ("thread_id", Json.str "zzz")]
    [("item", Json.str "bad"), ("thread_id", Json.str "zzz")]
    rfl rfl rfl rfl rfl

theorem failStep_fires (raw : String) (st : SessionResult) (kvs : List (String × Json))
    (s fm : String)
    (htype : Json.lookup kvs "type" = some (Json.str s))
    (hf : strContainsB s "fail" = true)
    (hfm : failMsgOf kvs = some fm) :
    ∃ r, failStep raw st kvs = Except.ok r
      ∧ r.agent_messages = st.agent_messages
      ∧ r.success = (if st.agent_messages = "" then false else st.success)
      ∧ r.err_message = st.err_message ++ ("\n\n[codex error] " ++ fm)
      ∧ r.thread_id = st.thread_id := by
  refine ⟨{ failPolicy st with
      err_message := (failPolicy st).err_message ++ ("\n\n[codex error] " ++ fm) },
    ?_, failPolicy_agent st, failPolicy_success_eq st, ?_, failPolicy_thread st⟩
  · cases hE : Json.lookup kvs "error" with
    | none =>
      have hfm2 : fm = "" := by
        have h2 := hfm
        simp [failMsgOf, hE] at h2
        exact h2.symm
      subst hfm2
      simp [failStep, pyDictGetD, htype, hf, hE]
    | some v =>
      cases v with
      | obj ekvs =>
        cases hM : Json.lookup ekvs "message" with
        | none =>
          have hfm2 : fm = "" := by
            have h2 := hfm
            simp [failMsgOf, hE, hM] at h2
            exact h2.symm
          subst hfm2
          simp [failStep, pyDictGetD, htype, hf, hE, hM]
        | some mv =>
          cases mv with
          | str m =>
            have hfm2 : fm = m := by
              have h2 := hfm
              simp [failMsgOf, hE, hM] at h2
              exact h2.symm
            subst hfm2
            simp [failStep, pyDictGetD, htype, hf, hE, hM]
          | null => exact absurd hfm (by simp [failMsgOf, hE, hM])
          | bool b => exact absurd hfm (by simp [failMsgOf, hE, hM])
          | num n => exact absurd hfm (by simp [failMsgOf, hE, hM])
          | arr es => exact absurd hfm (by simp [failMsgOf, hE, hM])
          | obj fs => exact absurd hfm (by simp [failMsgOf, hE, hM])
      | null => exact absurd hfm (by simp [failMsgOf, hE])
      | bool b => exact absurd hfm (by simp [failMsgOf, hE])
      | num n => exact absurd hfm (by simp [failMsgOf, hE])
      | str s2 => exact absurd hfm (by simp [failMsgOf, hE])
      | arr es => exact absurd hfm (by simp [failMsgOf, hE])
  · show (failPolicy st).err_message ++ ("\n\n[codex error] " ++ fm)
        = st.err_message ++ ("\n\n[codex error] " ++ fm)
    rw [failPolicy_err]

theorem failStep_skips (raw : String) (st : SessionResult) (kvs : List (String × Json))
    (s : String)
    (htype : Json.lookup kvs "type" = some (Json.str s))
    (hf : strContainsB s "fail" = false) :
    failStep raw st kvs = Except.ok st := by
  simp [failStep, pyDictGetD, htype, hf]

theorem errorStep_fires (raw : String) (st : SessionResult) (kvs : List (String × Json))
    (s em : String)
    (htype : Json.lookup kvs "type" = some (Json.str s))
    (he : strContainsB s "error" = true)
    (hem : errMsgOf kvs = some em)
    (hr : reconnectMatch em = false) :
    ∃ r, errorStep raw st kvs = Except.ok r
      ∧ r.agent_messages = st.agent_messages
      ∧ r.success = (if st.agent_messages = "" then false else st.success)
      ∧ r.err_message = st.err_message ++ ("\n\n[codex error] " ++ em)
      ∧ r.thread_id = st.thread_id := by
  refine ⟨{ failPolicy st with
      err_message := (failPolicy st).err_message ++ ("\n\n[codex error] " ++ em) },
    ?_, failPolicy_agent st, failPolicy_success_eq st, ?_, failPolicy_thread st⟩
  · cases hM : Json.lookup kvs "message" with
    | none =>
      have hem2 : em = "" := by
        have h2 := hem
        simp [errMsgOf, hM] at h2
        exact h2.symm
      subst hem2
      simp [errorStep, pyDictGetD, htype, he, hM, hr]
    | some mv =>
      cases mv with
      | str m =>
        have hem2 : em = m := by
          have h2 := hem
          simp [errMsgOf, hM] at h2
          exact h2.symm
        subst hem2
        simp [errorStep, pyDictGetD, htype, he, hM, hr]
      | null => exact absurd hem (by simp [errMsgOf, hM])
      | bool b => exact absurd hem (by simp [errMsgOf, hM])
      | num n => exact absurd hem (by simp [errMsgOf, hM])
      | arr es => exact absurd hem (by simp [errMsgOf, hM])
      | obj fs => exact absurd hem (by simp [errMsgOf, hM])
  · show (failPolicy st).err_message ++ ("\n\n[codex error] " ++ em)
        = st.err_message ++ ("\n\n[codex error] " ++ em)
    rw [failPolicy_err]

theorem errorStep_skips (raw : String) (st : SessionResult) (kvs : List (String × Json))
    (s : String)
    (htype : Json.lookup kvs "type" = some (Json.str s))
    (he : strContainsB s "error" = false) :
    errorStep raw st kvs = Except.ok st := by
  simp [errorStep, pyDictGetD, htype, he]

/-- Claim C2: on a failure event (top-level type containing `fail` and not
`error`, whose `error.message` payload `m` reads without raising), and on a
non-transient error event (type containing `error` and not `fail`, whose
top-level `message` `m` is an ASCII string not matching the reconnect
pattern — on ASCII strings the model's pattern coincides with the source
regex), carrying no `item` payload, the classifier appends
`[codex error]` plus `m` to `err_message` and sets `success = false` exactly
when `agent_messages` is empty at that moment, otherwise leaving `success`
at its current value — in particular a prior `false` is never flipped back
to `true`. -/
theorem claim_C2_failure_policy (tmoArg : Int) (raw : String) (st : SessionResult)
    (kvs : List (String × Json)) (s m : String)
    (htype : Json.lookup kvs "type" = some (Json.str s))
    (hitem : Json.lookup kvs "item" = none)
    (hkind :
      (strContainsB s "fail" = true ∧ strContainsB s "error" = false
        ∧ failMsgOf kvs = some m)
      ∨ (strContainsB s "error" = true ∧ strContainsB s "fail" = false
        ∧ errMsgOf kvs = some m ∧ asciiOnly m = true ∧ reconnectMatch m = false)) :
    (classifyLine tmoArg st (Line.decoded (Json.obj kvs) raw)).1.success
        = (if st.agent_messages = "" then false else st.success)
    ∧ (classifyLine tmoArg st (Line.decoded (Json.obj kvs) raw)).1.err_message
        = st.err_message ++ ("\n\n[codex error] " ++ m) := by
  have hsne : s ≠ "timeout" := by
    intro hs
    subst hs
    rcases hkind with ⟨hf, _, _⟩ | ⟨hf, _, _, _, _⟩
    · exact absurd hf (by decide)
    · exact absurd hf (by decide)
  have hTO : isTimeoutType kvs = false := by
    simp [isTimeoutType, pyDictGet, htype, hsne]
  have key : ∀ stA : SessionResult, stA.agent_messages = st.agent_messages →
      stA.err_message = st.err_message → stA.success = st.success →
      (classifyObj tmoArg raw stA kvs).1.success
          = (if st.agent_messages = "" then false else st.success)
      ∧ (classifyObj tmoArg raw stA kvs).1.err_message
          = st.err_message ++ ("\n\n[codex error] " ++ m) := by
    intro stA hag herm hsu
    unfold classifyObj
    rw [hTO]
    simp only [Bool.false_eq_true, if_false]
    have hI : itemStep raw stA kvs = Except.ok stA := by
      simp [itemStep, hitem]
    rw [hI]
    dsimp only
    have hagT : (threadStep stA kvs).agent_messages = st.agent_messages := by
      rw [threadStep_agent, hag]
    have hermT : (threadStep stA kvs).err_message = st.err_message := by
      rw [threadStep_err, herm]
    have hsuT : (threadStep stA kvs).success = st.success := by
      rw [threadStep_success, hsu]
    rcases hkind with ⟨hf, he, hfm⟩ | ⟨he, hf, hem, _hascii, hrc⟩
    · obtain ⟨r1, hF, hr1a, hr1s, hr1e, _⟩ :=
        failStep_fires raw (threadStep stA kvs) kvs s m htype hf hfm
      rw [hF]
      dsimp only
      rw [errorStep_skips raw r1 kvs s htype he]
      rw [hagT, hsuT] at hr1s
      rw [hermT] at hr1e
      exact ⟨hr1s, hr1e⟩
    · rw [failStep_skips raw (threadStep stA kvs) kvs s htype hf]
      dsimp only
      obtain ⟨r2, hE, _, hr2s, hr2e, _⟩ :=
        errorStep_fires raw (threadStep stA kvs) kvs s m htype he hem hrc
      rw [hE]
      dsimp only
      rw [hagT, hsuT] at hr2s
      rw [hermT] at hr2e
      exact ⟨hr2s, hr2e⟩
  exact key { st with all_messages := st.all_messages ++ [Json.obj kvs] } rfl rfl rfl

/-- Witness for C2: a canonical `error` event with message `boom` arriving
before any agent text flips `success` to `false` and appends the message. -/
theorem claim_C2_witness :
    (classifyLine 600 initialState
        (Line.decoded (Json.obj [("type", Json.str "error"),
                                 ("message", Json.str "boom")]) "")).1.success
        = (if initialState.agent_messages = "" then false else initialState.success)
    ∧ (classifyLine 600 initialState
        (Line.decoded (Json.obj [("type", Json.str "error"),
                                 ("message", Json.str "boom")]) "")).1.err_message
        = initialState.err_message ++ ("\n\n[codex error] " ++ "boom") :=
  claim_C2_failure_policy 600 "" initialState
    [("type", Json.str "error"), ("message", Json.str "boom")]
    "error" "boom" rfl rfl
    (Or.inr ⟨by decide, by decide, rfl, by decide, by decide⟩)
